import Mathlib

set_option maxRecDepth 8192

/-!
Verification of the merger-report data pipeline (`bg_report_html_pdf.py`).

The development shallowly embeds the pure data logic of the script:
`DataProcessor.process` / `DataProcessor.analyze` / `DataProcessor.is_guangdong_company`,
the empty-data guard of `ReportGenerator.generate_html`, and the control flow of `main`.

Python values appearing in the JSON feed are modelled by `Value`
(null / string / int / float, the latter modelled as an exact rational).
Python dicts are modelled as ordered association lists (`PyDict`), matching
insertion-ordered dict semantics.  Code that can raise (`[:10]` slicing on a
non-string, `kw in name` on a non-string, `dict[key]`) returns `Except PyErr`.
-/

namespace BGReport

/-- A Python scalar value as it occurs in the feed / rows.  Python floats are
modelled as exact rationals (`num`); Python ints as `int`. -/
inductive Value where
  | null
  | str (s : String)
  | int (n : ℤ)
  | num (q : ℚ)
deriving DecidableEq, Repr

deriving instance DecidableEq for Except

/-- An insertion-ordered Python dict with string keys. -/
abbrev PyDict := List (String × Value)

abbrev RawRecord := PyDict
abbrev Row := PyDict

/-- Exceptions the embedded code can raise. -/
inductive PyErr where
  | typeError
  | keyError
deriving DecidableEq, Repr

/-- First binding of a key in a dict (dicts never hold duplicate keys). -/
def pyLookup : PyDict → String → Option Value
  | [], _ => none
  | (k', v) :: rest, k => if k' = k then some v else pyLookup rest k

/-- Python `d.get(k, default)`. -/
def pyGetD (d : PyDict) (k : String) (dflt : Value) : Value :=
  match pyLookup d k with
  | some v => v
  | none => dflt

/-- Python `d[k] = v`: update in place if the key exists, else append. -/
def pySet : PyDict → String → Value → PyDict
  | [], k, v => [(k, v)]
  | (k', v') :: rest, k, v =>
    if k' = k then (k, v) :: rest else (k', v') :: pySet rest k v

/-- Python `==` between feed values (numeric values compare by value,
different kinds such as str vs int never compare equal). -/
def pyEq : Value → Value → Bool
  | .null, .null => true
  | .str a, .str b => a = b
  | .int a, .int b => a = b
  | .num a, .num b => a = b
  | .int a, .num b => (a : ℚ) = b
  | .num a, .int b => a = (b : ℚ)
  | _, _ => false

/-- Python truthiness of a feed value. -/
def pyTruthy : Value → Bool
  | .null => false
  | .str s => s ≠ ""
  | .int n => n ≠ 0
  | .num q => q ≠ 0

/-- The code points Python treats as whitespace (`str.isspace`, also the set
`str.strip()` strips and `float()` ignores around a literal): ASCII
whitespace and the Unicode space/line/paragraph separators. -/
def pySpaceCodes : List ℕ :=
  [9, 10, 11, 12, 13, 28, 29, 30, 31, 32, 133, 160, 5760,
   8192, 8193, 8194, 8195, 8196, 8197, 8198, 8199, 8200, 8201, 8202,
   8232, 8233, 8239, 8287, 12288]

/-- Whether Python considers the character whitespace. -/
def isPySpace (c : Char) : Bool :=
  pySpaceCodes.contains c.toNat

/-- Python `s.strip()`. -/
def pyStrip (s : String) : String :=
  String.mk (((s.data.dropWhile isPySpace).reverse.dropWhile isPySpace).reverse)

/-- ASCII lowercasing of one character. -/
def charLower (c : Char) : Char :=
  if 65 ≤ c.toNat ∧ c.toNat ≤ 90 then Char.ofNat (c.toNat + 32) else c

/-- Python `s.lower()` (ASCII part; full-Unicode lowering never maps a
non-ASCII string onto the ASCII comparand `"none"` used by the code). -/
def pyLower (s : String) : String :=
  String.mk (s.data.map charLower)

/-- Lines 90-93 of the source: the per-field null-safe coercion, mapping to
the sentinel any value that is None, strips to the empty string, or lowers
to the token none.  For an int/float value the Python str rendering is a
nonempty numeral, never whitespace-only and never that token, so numbers
pass through unchanged. -/
def coerce : Value → Value
  | .null => .str "-"
  | .str s => if pyStrip s = "" ∨ pyLower s = "none" then .str "-" else .str s
  | v => v

/-- Python `value[:10]`: slicing raises `TypeError` on a non-sequence
(null or a number). -/
def pySlice10 : Value → Except PyErr String
  | .str s => .ok (String.mk (s.data.take 10))
  | _ => .error .typeError

/-- Does the second list occur as a prefix of the first? -/
def listStartsWith : List Char → List Char → Bool
  | _, [] => true
  | [], _ :: _ => false
  | a :: as, b :: bs => a = b && listStartsWith as bs

/-- Does `pat` occur as a contiguous sublist of `s`? -/
def listHasSub : List Char → List Char → Bool
  | [], pat => pat.isEmpty
  | a :: as, pat => listStartsWith (a :: as) pat || listHasSub as pat

/-- Python `pat in s` on strings: contiguous substring test. -/
def strIn (pat s : String) : Bool :=
  listHasSub s.data pat.data

/-- The fixed Guangdong keyword list (`self.gd_keywords`, lines 59-61). -/
def gd_keywords : List String :=
  ["广东", "粤", "广州", "深圳", "珠海", "佛山", "东莞", "中山", "惠州",
   "江门", "肇庆", "汕头", "潮州", "揭阳", "汕尾", "韶关", "清远",
   "梅州", "河源", "阳江", "茂名", "湛江", "岭南"]

/-- Embeds `DataProcessor.is_guangdong_company` (lines 64-70).  `kw in company_name`
raises `TypeError` when the name is not a string (the `== '-'` equality
check itself never raises). -/
def is_guangdong_company (v : Value) : Except PyErr Bool :=
  if pyEq v (.str "-") then .ok false
  else
    match v with
    | .str s => .ok (gd_keywords.any (fun kw => strIn kw s))
    | _ => .error .typeError

/-- Value of an ASCII digit string. -/
def digitsToNat (cs : List Char) : ℕ :=
  cs.foldl (fun a c => 10 * a + (c.toNat - 48)) 0

/-- The first code point of each run of ten consecutive Unicode decimal
digits (category Nd), per the Unicode 14 tables CPython 3.11 ships: ASCII,
Arabic-Indic, Devanagari, fullwidth and the other decimal-digit scripts.
`float()` maps any of these digits to its ASCII value before parsing. -/
def ndStarts : List ℕ :=
  [48, 1632, 1776, 1984, 2406, 2534, 2662, 2790,
   2918, 3046, 3174, 3302, 3430, 3558, 3664, 3792,
   3872, 4160, 4240, 6112, 6160, 6470, 6608, 6784,
   6800, 6992, 7088, 7232, 7248, 42528, 43216, 43264,
   43472, 43504, 43600, 44016, 65296, 66720, 68912, 69734,
   69872, 69942, 70096, 70384, 70736, 70864, 71248, 71360,
   71472, 71904, 72016, 72784, 73040, 73120, 92768, 92864,
   93008, 120782, 120792, 120802, 120812, 120822, 123200, 123632,
   125264, 130032]

/-- The decimal value of a Unicode decimal digit, if the character is one. -/
def pyDigitVal (c : Char) : Option ℕ :=
  match ndStarts.find? (fun s => decide (s ≤ c.toNat) && decide (c.toNat < s + 10)) with
  | some s => some (c.toNat - s)
  | none => none

/-- CPython's transform applied to a string before float parsing: every
Unicode decimal digit becomes its ASCII digit, every Unicode whitespace
character becomes an ASCII space, everything else is unchanged. -/
def toAsciiDecimal (cs : List Char) : List Char :=
  cs.map fun c =>
    match pyDigitVal c with
    | some d => Char.ofNat (48 + d)
    | none => if isPySpace c then ' ' else c

/-- Number of binary digits of `n` (0 for 0), computed with a structurally
decreasing fuel so that it evaluates inside the kernel. -/
def bitLenAux : ℕ → ℕ → ℕ
  | 0, _ => 0
  | fuel + 1, n => if n = 0 then 0 else bitLenAux fuel (n / 2) + 1

def bitLen (n : ℕ) : ℕ := bitLenAux n n

/-- The integer `d` with `2 ^ d ≤ a / b < 2 ^ (d + 1)`, for `a, b ≥ 1`. -/
def ilogRat (a b : ℕ) : ℤ :=
  let d : ℤ := (bitLen a : ℤ) - (bitLen b : ℤ)
  if 0 ≤ d then (if b * 2 ^ d.toNat ≤ a then d else d - 1)
  else (if b ≤ a * 2 ^ (-d).toNat then d else d - 1)

/-- An IEEE-754 binary64 value — what a Python float is.  A finite value is
`(-1)^neg * m * 2^e` with `m < 2^53` (so a zero carries its sign); the
non-finite values are the two infinities and nan (whose sign Python's
formatting ignores). -/
inductive Float64 where
  | nan
  | inf (neg : Bool)
  | finite (neg : Bool) (m : ℕ) (e : ℤ)
deriving DecidableEq, Repr

/-- Round `a / den` (with `den > 0`) to the nearest natural, ties to even —
the rounding IEEE 754 prescribes for conversions and formatting. -/
def rheNat (a den : ℕ) : ℕ :=
  let q := a / den
  let r2 := 2 * (a % den)
  if r2 < den then q
  else if den < r2 then q + 1
  else if q % 2 = 0 then q else q + 1

/-- The binary64 value nearest to `(-1)^neg * a / b` (round to nearest, ties
to even; gradual underflow below `2^-1022`; overflow to infinity), exactly
as a correctly rounded `strtod` produces it. -/
def roundRatToF64 (neg : Bool) (a b : ℕ) : Float64 :=
  if a = 0 then .finite neg 0 0
  else
    let ilog := ilogRat a b
    let e : ℤ := max (ilog - 52) (-1074)
    let nd := if 0 ≤ e then (a, b * 2 ^ e.toNat) else (a * 2 ^ (-e).toNat, b)
    let m := rheNat nd.1 nd.2
    if m = 2 ^ 53 then
      if 971 < e + 1 then .inf neg else .finite neg (2 ^ 52) (e + 1)
    else
      if 971 < e then .inf neg else .finite neg m e

/-- Continuation of a digit group: further digits, where a single underscore
may stand between two digits (Python's digit-group rule). -/
def digitSpanRest : List Char → (List Char × List Char)
  | '_' :: c :: rest =>
    if c.isDigit then
      let p := digitSpanRest rest
      (c :: p.1, p.2)
    else ([], '_' :: c :: rest)
  | c :: rest =>
    if c.isDigit then
      let p := digitSpanRest rest
      (c :: p.1, p.2)
    else ([], c :: rest)
  | [] => ([], [])

/-- A digit group: a digit followed by digits with optional single
underscores between them; returns the digits and the unconsumed rest. -/
def digitSpanU : List Char → (List Char × List Char)
  | c :: rest =>
    if c.isDigit then
      let p := digitSpanRest rest
      (c :: p.1, p.2)
    else ([], c :: rest)
  | [] => ([], [])

/-- Python `float(s)` on a string: CPython first maps Unicode digits and
whitespace to ASCII, strips surrounding whitespace, then accepts an optional
sign followed by either a case-insensitive `inf`/`infinity`/`nan` spelling
or a decimal literal `digits[.digits][(e|E)[sign]digits]` (with single
underscores allowed between digits), and converts the decimal value to the
nearest binary64. -/
def parseFloat (s : String) : Option Float64 :=
  let cs0 := toAsciiDecimal s.data
  let cs1 := ((cs0.dropWhile isPySpace).reverse.dropWhile isPySpace).reverse
  let sg :=
    match cs1 with
    | '+' :: r => (false, r)
    | '-' :: r => (true, r)
    | r => (false, r)
  let neg := sg.1
  let low := sg.2.map charLower
  if low = "inf".data ∨ low = "infinity".data then some (.inf neg)
  else if low = "nan".data then some .nan
  else
    let p1 := digitSpanU sg.2
    let d1 := p1.1
    let p2 :=
      match p1.2 with
      | '.' :: r => digitSpanU r
      | r => (([] : List Char), r)
    let d2 := p2.1
    if d1.isEmpty ∧ d2.isEmpty then none
    else
      let M := digitsToNat (d1 ++ d2)
      let K := d2.length
      let mk : ℤ → Option Float64 := fun exp10 =>
        if M = 0 then some (.finite neg 0 0)
        else if 0 ≤ exp10 then some (roundRatToF64 neg (M * 10 ^ exp10.toNat) 1)
        else some (roundRatToF64 neg M (10 ^ (-exp10).toNat))
      match p2.2 with
      | [] => mk (-(K : ℤ))
      | e :: r =>
        if e = 'e' ∨ e = 'E' then
          let esg :=
            match r with
            | '+' :: r2 => (true, r2)
            | '-' :: r2 => (false, r2)
            | r2 => (true, r2)
          let pe := digitSpanU esg.2
          if pe.1.isEmpty ∨ ¬ pe.2.isEmpty then none
          else
            let E : ℤ := digitsToNat pe.1
            mk ((if esg.1 then E else -E) - (K : ℤ))
        else none

/-- Python `float(value)` on a feed value.  A feed float is already a
binary64 whose exact value the model carries as a rational, so rounding that
rational recovers the same binary64; `float` of an int is the nearest
binary64 except that overflow raises OverflowError (`none`, caught by the
caller's bare `except`); strings are parsed; `float(None)` raises. -/
def pyFloat : Value → Option Float64
  | .num q => some (roundRatToF64 (decide (q < 0)) q.num.natAbs q.den)
  | .int n =>
    match roundRatToF64 (decide (n < 0)) n.natAbs 1 with
    | .inf _ => none
    | f => some f
  | .str s => parseFloat s
  | .null => none

/-- Insert a `,` after every third character of a reversed digit list. -/
def groupAux : List Char → List Char
  | [] => []
  | [a] => [a]
  | [a, b] => [a, b]
  | [a, b, c] => [a, b, c]
  | a :: b :: c :: d :: rest => a :: b :: c :: ',' :: groupAux (d :: rest)

/-- Thousands-grouping of a digit string. -/
def groupThousands (s : String) : String :=
  String.mk ((groupAux s.data.reverse).reverse)

/-- Two-digit rendering of a value `< 100`. -/
def twoDigitChars (m : ℕ) : List Char :=
  if m < 10 then '0' :: (Nat.repr m).data else (Nat.repr m).data

/-- Python float formatting with thousands separators and exactly two
decimals (line 99): the format operator rounds the exact binary value of
the double half-to-even at the second decimal (CPython uses a correctly
rounded conversion), prints a minus sign for any negative double (also a
negative zero), and prints the tokens nan/inf for the non-finite values
(nan unsigned). -/
def formatCurrency (x : Float64) : String :=
  match x with
  | .nan => "nan"
  | .inf neg => if neg then "-inf" else "inf"
  | .finite neg m e =>
    let cents := if 0 ≤ e then m * 100 * 2 ^ e.toNat else rheNat (m * 100) (2 ^ (-e).toNat)
    String.mk ((if neg then ['-'] else []) ++
      (groupAux (Nat.repr (cents / 100)).data.reverse).reverse ++
      '.' :: twoDigitChars (cents % 100))

/-- Python `str(value)` where it feeds an f-string.  Used only for the stock
code inside the generated URLs; for a numeric value Python prints its repr,
modelled here as the integer numeral (the feed's stock codes are strings,
and no claim depends on a numeric rendering). -/
def pyStr : Value → String
  | .null => "None"
  | .str s => s
  | .int n => Int.repr n
  | .num q => Int.repr q.num ++ "/" ++ Nat.repr q.den

def noticeUrl (sc : String) : String :=
  "https://data.eastmoney.com/notices/stock/" ++ sc ++ ".html"

def detailUrl (sc : String) : String :=
  "https://data.eastmoney.com/bgcz/detail/" ++ sc ++ ".html"

/-- The pipe-separated link markup (line 108). -/
def sepLinks (sc : String) : String :=
  "<a href=\"" ++ noticeUrl sc ++ "\" target=\"_blank\">公告</a> | <a href=\"" ++
    detailUrl sc ++ "\" target=\"_blank\">详细</a>"

/-- The line-broken link markup (line 110). -/
def brLinks (sc : String) : String :=
  "<a href=\"" ++ noticeUrl sc ++ "\" target=\"_blank\">公告</a><br><a href=\"" ++
    detailUrl sc ++ "\" target=\"_blank\">详细</a>"

/-- The table `self.field_mapping` (lines 47-58), in its dict insertion order. -/
def field_mapping : List (String × String) :=
  [("SCODE", "股票代码"),
   ("SNAME", "股票简称"),
   ("OBJTYPE", "相关"),
   ("H_COMNAME", "交易标的"),
   ("G_GOMNAME", "卖方"),
   ("S_COMNAME", "买方"),
   ("JYJE", "交易金额 (万)"),
   ("BZNAME", "币种"),
   ("ZRFS", "并购方式"),
   ("ANNOUNDATE", "最新公告日")]

/-- One iteration of the `for api_field, report_field in self.field_mapping.items()`
loop body (lines 95-117), after the value has been coerced.  `sc` is the raw
(uncoerced) `stock_code` from line 85. -/
def applyField (api rep : String) (sc : Value) (value : Value) (row : Row) :
    Except PyErr Row :=
  if api = "JYJE" then
    -- try: if value != '-': row[...] = f"{float(value):,.2f}"  except: row[...] = "-"
    .ok (if pyEq value (.str "-") then row
         else match pyFloat value with
              | some q => pySet row rep (.str (formatCurrency q))
              | none => pySet row rep (.str "-"))
  else if api = "OBJTYPE" then
    -- if stock_code and value != '-': generate both link variants, else both "-"
    .ok (if pyTruthy sc && !pyEq value (.str "-") then
           pySet (pySet row "相关_带分隔符" (.str (sepLinks (pyStr sc))))
             "相关_换行" (.str (brLinks (pyStr sc)))
         else
           pySet (pySet row "相关_带分隔符" (.str "-")) "相关_换行" (.str "-"))
  else if api = "ANNOUNDATE" then
    -- row[...] = value[:10] if value != '-' else "-"
    if pyEq value (.str "-") then .ok (pySet row rep (.str "-"))
    else match pySlice10 value with
         | .ok t => .ok (pySet row rep (.str t))
         | .error e => .error e
  else
    .ok (pySet row rep value)

/-- The whole field-mapping loop (lines 89-117). -/
def applyFields (item : RawRecord) (sc : Value) :
    List (String × String) → Row → Except PyErr Row
  | [], row => .ok row
  | (api, rep) :: rest, row =>
    match applyField api rep sc (coerce (pyGetD item api (.str "-"))) row with
    | .ok row' => applyFields item sc rest row'
    | .error e => .error e

/-- Line 124, `self.is_guangdong_company(seller) or self.is_guangdong_company(buyer)`,
with Python's short-circuit `or`. -/
def gdCheck (seller buyer : Value) : Except PyErr Bool :=
  match is_guangdong_company seller with
  | .error e => .error e
  | .ok true => .ok true
  | .ok false => is_guangdong_company buyer

/-- The body of the `for item in raw_data` loop (lines 78-128) for one record:
`none` when the record fails the date filter, otherwise the built row together
with the region-tagged copy appended to `guangdong_cases` (if any). -/
def processItem (today : String) (serial : ℕ) (item : RawRecord) :
    Except PyErr (Option (Row × Option Row)) :=
  match pySlice10 (pyGetD item "SCGGRQ" (.str "")) with
  | .error e => .error e
  | .ok ten =>
    if ten ≠ today then .ok none
    else
      match applyFields item (pyGetD item "SCODE" (.str ""))
          field_mapping (pySet [("序号", Value.int serial)] "交易金额 (万)" (.str "-")) with
      | .error e => .error e
      | .ok row =>
        match gdCheck (pyGetD row "卖方" (.str "")) (pyGetD row "买方" (.str "")) with
        | .error e => .error e
        | .ok false => .ok (some (row, none))
        | .ok true =>
          match pyLookup row "相关_带分隔符" with
          | none => .error .keyError
          | some link => .ok (some (row, some (pySet row "相关" link)))

/-- The loop of `DataProcessor.process`, returning the processed rows and the
region-tagged cases appended during this call, both in feed order. -/
def processAux (today : String) (serial : ℕ) :
    List RawRecord → Except PyErr (List Row × List Row)
  | [] => .ok ([], [])
  | item :: rest =>
    match processItem today serial item with
    | .error e => .error e
    | .ok none => processAux today serial rest
    | .ok (some (row, g)) =>
      match processAux today (serial + 1) rest with
      | .error e => .error e
      | .ok (rows, gds) =>
        .ok (row :: rows, match g with | none => gds | some c => c :: gds)

/-- The mutable state of a `DataProcessor` instance: `self.today` and
`self.guangdong_cases` (lines 46, 62). -/
structure DataProcessorState where
  today : String
  guangdong_cases : List Row
deriving DecidableEq, Repr

/-- Embeds `DataProcessor.process` (lines 72-130).  On success it returns the
processed rows and the instance with this call's region-tagged cases appended
to `self.guangdong_cases`.  (When an exception escapes the loop, `main`'s
`except` block aborts the run; the partially-appended instance state is then
never read, and is not modelled.) -/
def process (st : DataProcessorState) (raw : List RawRecord) :
    Except PyErr (List Row × DataProcessorState) :=
  if raw.isEmpty then .ok ([], st)
  else
    match processAux st.today 1 raw with
    | .error e => .error e
    | .ok (rows, gds) =>
      .ok (rows, { st with guangdong_cases := st.guangdong_cases ++ gds })

/-- The method distribution of line 146 (pandas value_counts over the
并购方式 column, taken to a dict), modelled extensionally as the count
function of the column: Python dict equality ignores insertion order, and
every processed row carries the column. -/
def methodDist (processed : List Row) : Value → ℕ := fun v =>
  (processed.map (fun r => pyGetD r "并购方式" .null)).countP (fun w => pyEq w v)

/-- The analysis dict returned by `DataProcessor.analyze`. -/
structure Analysis where
  overview : String
  basic_overview : String
  cases : List Row
  guangdong_cases : List Row
  guangdong_count : ℕ
  total_count : ℕ
  method_distribution : Value → ℕ

/-- The fixed "no data" analysis (lines 134-142). -/
def noDataAnalysis : Analysis :=
  { overview := "今日无并购重组数据公告"
    basic_overview := "今日无并购重组数据公告"
    cases := []
    guangdong_cases := []
    guangdong_count := 0
    total_count := 0
    method_distribution := fun _ => 0 }

/-- Embeds `DataProcessor.analyze` (lines 132-156). -/
def analyze (st : DataProcessorState) (processed : List Row) : Analysis :=
  if processed.isEmpty then noDataAnalysis
  else
    { overview := "今日共获取" ++ Nat.repr processed.length ++ "条并购重组数据"
      basic_overview := "今日共获取" ++ Nat.repr processed.length ++ "条并购重组数据"
      cases := []
      guangdong_cases := st.guangdong_cases
      guangdong_count := st.guangdong_cases.length
      total_count := processed.length
      method_distribution := methodDist processed }

/-- A call of the `analyze` method on an instance: the method assigns no
instance attribute, so the state comes back unchanged. -/
def analyze_call (st : DataProcessorState) (processed : List Row) :
    Analysis × DataProcessorState :=
  (analyze st processed, st)

/-- The pure guard of `ReportGenerator.generate_html` (lines 166-191):
empty data yields no artifact; otherwise the artifact name
`并购重组日报_<date>.html` when the template/file collaborator succeeds. -/
def generate_html (renderOk : Bool) (data : List Row) (_analysis : Analysis)
    (date_str : String) : Option String :=
  if data.isEmpty then none
  else if renderOk then some ("并购重组日报_" ++ date_str ++ ".html") else none

/-- Observable outbound actions of `main` toward the webhook collaborator. -/
inductive MainAction where
  | sendStatus (status msg : String)
  | sendFile (path : String)
deriving DecidableEq, Repr

/-- The delivery loop of `main` (lines 342-347): files in order, stopping at
the first failure. -/
def sendLoop (sendOk : String → Bool) (total : ℕ) : List String → List MainAction
  | [] => [.sendStatus "成功" ("报告生成并发送成功，共发送" ++ Nat.repr total ++ "个文件")]
  | p :: rest =>
    if sendOk p then .sendFile p :: sendLoop sendOk total rest
    else [.sendFile p, .sendStatus "失败" ("文件发送失败: " ++ p)]

/-- The control flow of `main` (lines 310-354) over the core pipeline, with
the collaborators injected: `gen` stands for `ReportGenerator.generate`
(returning the artifact paths) and `sendOk` for `WechatSender.send_file`.
A pipeline exception is caught by the run-boundary `except` and reported. -/
def mainRun (st : DataProcessorState) (raw : List RawRecord)
    (gen : List Row → Analysis → List String) (sendOk : String → Bool) :
    List MainAction :=
  if raw.isEmpty then [.sendStatus "成功" "未获取到原始数据，任务正常结束"]
  else
    match process st raw with
    | .error _ => [.sendStatus "失败" "任务执行出错"]
    | .ok (processed, st1) =>
      if processed.isEmpty then [.sendStatus "成功" "今日无相关数据，任务正常结束"]
      else
        let paths := gen processed (analyze st1 processed)
        if paths.isEmpty then [.sendStatus "失败" "报告生成失败"]
        else sendLoop sendOk paths.length paths

/-! ### Claim-side definitions (formalizing the spec's wording) -/

/-- The date-filter acceptance condition as the spec words it: the record's
disclosure-date field (`''` when absent, as `item.get('SCGGRQ','')` yields),
truncated to its first 10 characters, equals the target date. -/
def keepB (today : String) (item : RawRecord) : Bool :=
  match pyGetD item "SCGGRQ" (.str "") with
  | .str s => String.mk (s.data.take 10) = today
  | _ => false

/-- The currency rule of the JYJE branch for a (coerced) value: the missing
sentinel stays `"-"`, a failed float conversion yields `"-"` (the bare
except), and a successful conversion is rendered by the two-decimal
thousands-separated format operator (which prints nan/inf tokens for
non-finite doubles). -/
def jyje_display (v : Value) : Value :=
  if pyEq v (.str "-") then .str "-"
  else
    match pyFloat v with
    | none => .str "-"
    | some q => .str (formatCurrency q)

/-- The spec's region-classification condition on one counterparty-name
value: not the missing sentinel, and containing some keyword of the fixed
list as a substring. -/
def gd_name_match (v : Value) : Prop :=
  ∃ s, v = .str s ∧ s ≠ "-" ∧ ∃ kw ∈ gd_keywords, strIn kw s = true

/-- Whether a source value is "missing" in the spec's sense for claim C1:
absent from the record, null, empty or whitespace-only, or the token "none"
in any letter case. -/
def missing_source (item : RawRecord) (api : String) : Prop :=
  pyLookup item api = none ∨ pyLookup item api = some .null ∨
    (∃ s, pyLookup item api = some (.str s) ∧ (pyStrip s = "" ∨ pyLower s = "none"))

/-- The keys every canonical row carries (the serial, the pre-seeded currency
column, the two link renderings, and the mapped report fields other than
`相关`). -/
def canonicalKeys : List String :=
  ["序号", "交易金额 (万)", "股票代码", "股票简称", "相关_带分隔符", "相关_换行",
   "交易标的", "卖方", "买方", "币种", "并购方式", "最新公告日"]

/-- Data conditions under which a record cannot make `process` raise: its
`SCGGRQ` value slices (a string, or absent), and the fields that are sliced
or substring-searched after coercion (`ANNOUNDATE`, `G_GOMNAME`,
`S_COMNAME`) hold strings or nulls (or are absent). -/
def safeItemB (item : RawRecord) : Bool :=
  (match pyGetD item "SCGGRQ" (.str "") with
   | .str _ => true
   | _ => false) &&
  (["ANNOUNDATE", "G_GOMNAME", "S_COMNAME"].all fun api =>
    match pyGetD item api (.str "-") with
    | .str _ => true
    | .null => true
    | _ => false)

/-- Which row keys one iteration of the field loop can write: the `OBJTYPE`
iteration writes only the two link renderings (never its mapped name
`相关`), every other iteration writes only its mapped report name. -/
def touchesB (api rep k : String) : Bool :=
  if api = "OBJTYPE" then k = "相关_带分隔符" || k = "相关_换行" else k = rep

/-! ### Concrete records and rows used in final instance checks -/

def witRowC3 : Row :=
  [("序号", Value.int 1), ("交易金额 (万)", Value.str "1,234,567.50"),
   ("股票代码", Value.str "000001"), ("股票简称", Value.str "-"),
   ("相关_带分隔符", Value.str "-"), ("相关_换行", Value.str "-"),
   ("交易标的", Value.str "-"), ("卖方", Value.str "-"), ("买方", Value.str "-"),
   ("币种", Value.str "-"), ("并购方式", Value.str "-"), ("最新公告日", Value.str "-")]

def witItemC5 : RawRecord :=
  [("SCGGRQ", .str "2025-01-02"), ("SCODE", .str "000001"),
   ("G_GOMNAME", .str "广东XX有限公司")]

def witRowC5 : Row :=
  [("序号", Value.int 1), ("交易金额 (万)", Value.str "-"),
   ("股票代码", Value.str "000001"), ("股票简称", Value.str "-"),
   ("相关_带分隔符", Value.str "-"), ("相关_换行", Value.str "-"),
   ("交易标的", Value.str "-"), ("卖方", Value.str "广东XX有限公司"),
   ("买方", Value.str "-"), ("币种", Value.str "-"), ("并购方式", Value.str "-"),
   ("最新公告日", Value.str "-")]

def witItemC8 : RawRecord :=
  [("SCGGRQ", .str "2025-01-03"), ("S_COMNAME", .str "深圳创投")]

def witRowC8 : Row :=
  [("序号", Value.int 1), ("交易金额 (万)", Value.str "-"),
   ("股票代码", Value.str "-"), ("股票简称", Value.str "-"),
   ("相关_带分隔符", Value.str "-"), ("相关_换行", Value.str "-"),
   ("交易标的", Value.str "-"), ("卖方", Value.str "-"),
   ("买方", Value.str "深圳创投"), ("币种", Value.str "-"),
   ("并购方式", Value.str "-"), ("最新公告日", Value.str "-")]

def witCaseC8 : Row := pySet witRowC8 "相关" (Value.str "-")

/-- A concrete feed of three records: two on the target date 2025-01-05 (the
second with a timestamped date and a malformed currency), one on another
date. -/
def witRawC2 : List RawRecord :=
  [[("SCGGRQ", .str "2025-01-05"), ("ZRFS", .str "协议收购")],
   [("SCGGRQ", .str "2024-12-31")],
   [("SCGGRQ", .str "2025-01-05 00:00:00"), ("JYJE", .str "abc")]]

/-- The rows `process` produces for `witRawC2` on 2025-01-05. -/
def witRowsC2 : List Row :=
  [[("序号", Value.int 1), ("交易金额 (万)", Value.str "-"),
    ("股票代码", Value.str "-"), ("股票简称", Value.str "-"),
    ("相关_带分隔符", Value.str "-"), ("相关_换行", Value.str "-"),
    ("交易标的", Value.str "-"), ("卖方", Value.str "-"), ("买方", Value.str "-"),
    ("币种", Value.str "-"), ("并购方式", Value.str "协议收购"),
    ("最新公告日", Value.str "-")],
   [("序号", Value.int 2), ("交易金额 (万)", Value.str "-"),
    ("股票代码", Value.str "-"), ("股票简称", Value.str "-"),
    ("相关_带分隔符", Value.str "-"), ("相关_换行", Value.str "-"),
    ("交易标的", Value.str "-"), ("卖方", Value.str "-"), ("买方", Value.str "-"),
    ("币种", Value.str "-"), ("并购方式", Value.str "-"),
    ("最新公告日", Value.str "-")]]

/-- The canonical row produced for a retained record all of whose mapped
source fields are absent. -/
def rowAllMissing : Row :=
  [("序号", Value.int 1), ("交易金额 (万)", Value.str "-"),
   ("股票代码", Value.str "-"), ("股票简称", Value.str "-"),
   ("相关_带分隔符", Value.str "-"), ("相关_换行", Value.str "-"),
   ("交易标的", Value.str "-"), ("卖方", Value.str "-"), ("买方", Value.str "-"),
   ("币种", Value.str "-"), ("并购方式", Value.str "-"), ("最新公告日", Value.str "-")]

/-! ### Dictionary lemmas -/

theorem pyLookup_pySet_self (d : PyDict) (k : String) (v : Value) :
    pyLookup (pySet d k v) k = some v := by
  induction d with
  | nil => simp [pySet, pyLookup]
  | cons kv rest ih =>
    obtain ⟨k0, v0⟩ := kv
    by_cases h : k0 = k
    · simp [pySet, pyLookup, h]
    · simpa [pySet, pyLookup, h] using ih

theorem pyLookup_pySet_ne (d : PyDict) (k k' : String) (v : Value) (h : k' ≠ k) :
    pyLookup (pySet d k v) k' = pyLookup d k' := by
  have h' : ¬ k = k' := fun he => h he.symm
  induction d with
  | nil => simp [pySet, pyLookup, h']
  | cons kv rest ih =>
    obtain ⟨k0, v0⟩ := kv
    by_cases h1 : k0 = k
    · subst h1
      simp only [pySet, if_pos rfl, pyLookup]
      rw [if_neg h', if_neg h']
    · simp only [pySet, if_neg h1, pyLookup]
      by_cases h2 : k0 = k'
      · rw [if_pos h2, if_pos h2]
      · rw [if_neg h2, if_neg h2]
        exact ih

/-! ### Structure of the field-mapping loop -/

theorem applyFields_append (item : RawRecord) (sc : Value)
    (m₁ m₂ : List (String × String)) (row : Row) :
    applyFields item sc (m₁ ++ m₂) row =
      match applyFields item sc m₁ row with
      | .ok mid => applyFields item sc m₂ mid
      | .error e => .error e := by
  induction m₁ generalizing row with
  | nil => simp [applyFields]
  | cons p rest ih =>
    obtain ⟨api, rep⟩ := p
    simp only [List.cons_append, applyFields]
    cases applyField api rep sc (coerce (pyGetD item api (.str "-"))) row with
    | ok mid => exact ih mid
    | error e => rfl

theorem applyFields_ok_split (item : RawRecord) (sc : Value)
    (m₁ m₂ : List (String × String)) (row r : Row)
    (h : applyFields item sc (m₁ ++ m₂) row = .ok r) :
    ∃ mid, applyFields item sc m₁ row = .ok mid ∧ applyFields item sc m₂ mid = .ok r := by
  rw [applyFields_append] at h
  cases h1 : applyFields item sc m₁ row with
  | ok mid => rw [h1] at h; exact ⟨mid, rfl, h⟩
  | error e => rw [h1] at h; cases h

theorem applyFields_cons (item : RawRecord) (sc : Value) (api rep : String)
    (m : List (String × String)) (row r : Row)
    (h : applyFields item sc ((api, rep) :: m) row = .ok r) :
    ∃ mid, applyField api rep sc (coerce (pyGetD item api (.str "-"))) row = .ok mid ∧
      applyFields item sc m mid = .ok r := by
  simp only [applyFields] at h
  cases h1 : applyField api rep sc (coerce (pyGetD item api (.str "-"))) row with
  | ok mid => rw [h1] at h; exact ⟨mid, rfl, h⟩
  | error e => rw [h1] at h; cases h

theorem applyField_pres (api rep : String) (sc value : Value) (row r : Row)
    (k : String) (hk : touchesB api rep k = false)
    (h : applyField api rep sc value row = .ok r) :
    pyLookup r k = pyLookup row k := by
  unfold applyField at h
  by_cases hJ : api = "JYJE"
  · simp [touchesB, hJ] at hk
    rw [if_pos hJ] at h
    injection h with hr
    subst hr
    split
    · rfl
    · split <;> exact pyLookup_pySet_ne _ _ _ _ hk
  · by_cases hO : api = "OBJTYPE"
    · simp [touchesB, hO] at hk
      rw [if_neg hJ, if_pos hO] at h
      injection h with hr
      subst hr
      split <;>
        rw [pyLookup_pySet_ne _ _ _ _ hk.2, pyLookup_pySet_ne _ _ _ _ hk.1]
    · by_cases hA : api = "ANNOUNDATE"
      · simp [touchesB, hO] at hk
        rw [if_neg hJ, if_neg hO, if_pos hA] at h
        split at h
        · injection h with hr
          subst hr
          exact pyLookup_pySet_ne _ _ _ _ hk
        · split at h
          · injection h with hr
            subst hr
            exact pyLookup_pySet_ne _ _ _ _ hk
          · cases h
      · simp [touchesB, hO] at hk
        rw [if_neg hJ, if_neg hO, if_neg hA] at h
        injection h with hr
        subst hr
        exact pyLookup_pySet_ne _ _ _ _ hk

theorem applyFields_pres (item : RawRecord) (sc : Value) :
    ∀ (m : List (String × String)) (row r : Row) (k : String),
      (∀ p ∈ m, touchesB p.1 p.2 k = false) →
      applyFields item sc m row = .ok r → pyLookup r k = pyLookup row k
  | [], row, r, _, _, h => by
    simp only [applyFields] at h
    injection h with hr
    subst hr
    rfl
  | (api, rep) :: rest, row, r, k, hk, h => by
    obtain ⟨mid, h1, h2⟩ := applyFields_cons item sc api rep rest row r h
    have hrest := applyFields_pres item sc rest mid r k
      (fun q hq => hk q (by simp [hq])) h2
    rw [hrest]
    exact applyField_pres api rep sc _ row mid k (hk (api, rep) (by simp)) h1

/-! ### Value-level facts -/

theorem pyEq_str_iff (v : Value) (t : String) : pyEq v (.str t) = true ↔ v = .str t := by
  cases v <;> simp [pyEq]

theorem pyGetD_of_lookup (d : PyDict) (k : String) (v dflt : Value)
    (h : pyLookup d k = some v) : pyGetD d k dflt = v := by
  simp [pyGetD, h]

theorem coerce_ne_null (v : Value) : coerce v ≠ .null := by
  cases v with
  | str s =>
    by_cases h : pyStrip s = "" ∨ pyLower s = "none" <;> simp [coerce, h]
  | _ => simp [coerce]

theorem coerce_ne_empty (v : Value) : coerce v ≠ .str "" := by
  cases v with
  | str s =>
    by_cases h : pyStrip s = "" ∨ pyLower s = "none"
    · simp [coerce, h]
    · simp only [coerce, if_neg h, ne_eq, Value.str.injEq]
      intro he
      subst he
      exact (not_or.mp h).1 rfl
  | _ => simp [coerce]

/-- A coerced seller/buyer-style value that compares equal to no string is an
int or a float; combined with `safeItemB` these cases are excluded. -/
theorem coerce_of_str_or_null (v : Value)
    (h : (∃ s, v = .str s) ∨ v = .null) : ∃ s, coerce v = .str s := by
  rcases h with ⟨s, rfl⟩ | rfl
  · by_cases h : pyStrip s = "" ∨ pyLower s = "none"
    · exact ⟨"-", by simp [coerce, h]⟩
    · exact ⟨s, by simp [coerce, h]⟩
  · exact ⟨"-", rfl⟩

/-! ### The initial row of one loop iteration -/

/-- The dict a loop iteration starts from: the serial entry built on line 83
followed by the line-87 pre-seed of the currency column. -/
def initRow (serial : ℕ) : Row :=
  pySet [("序号", Value.int serial)] "交易金额 (万)" (.str "-")

theorem initRow_eq (serial : ℕ) :
    initRow serial = [("序号", Value.int serial), ("交易金额 (万)", Value.str "-")] := by
  simp [initRow, pySet]

theorem initRow_serial (serial : ℕ) :
    pyLookup (initRow serial) "序号" = some (.int serial) := by
  simp [initRow_eq, pyLookup]

theorem initRow_jyje (serial : ℕ) :
    pyLookup (initRow serial) "交易金额 (万)" = some (.str "-") := by
  simp [initRow_eq, pyLookup]

theorem initRow_other (serial : ℕ) (k : String)
    (h1 : k ≠ "序号") (h2 : k ≠ "交易金额 (万)") :
    pyLookup (initRow serial) k = none := by
  simp only [initRow_eq, pyLookup]
  rw [if_neg (fun h => h1 h.symm), if_neg (fun h => h2 h.symm)]

/-! ### Per-field content of a processed row -/

theorem row_pass_value (item : RawRecord) (sc : Value)
    (m₁ m₂ : List (String × String)) (api rep : String) (row0 row : Row)
    (hsplit : field_mapping = m₁ ++ (api, rep) :: m₂)
    (hJ : api ≠ "JYJE") (hO : api ≠ "OBJTYPE") (hA : api ≠ "ANNOUNDATE")
    (hm₂ : ∀ p ∈ m₂, touchesB p.1 p.2 rep = false)
    (h : applyFields item sc field_mapping row0 = .ok row) :
    pyLookup row rep = some (coerce (pyGetD item api (.str "-"))) := by
  rw [hsplit] at h
  obtain ⟨mid, _, h2⟩ := applyFields_ok_split _ _ _ _ _ _ h
  obtain ⟨mid2, h3, h4⟩ := applyFields_cons _ _ _ _ _ _ _ h2
  unfold applyField at h3
  rw [if_neg hJ, if_neg hO, if_neg hA] at h3
  injection h3 with hr
  subst hr
  rw [applyFields_pres item sc m₂ _ row rep hm₂ h4, pyLookup_pySet_self]

theorem row_jyje_value (item : RawRecord) (sc : Value) (row0 row : Row)
    (h0 : pyLookup row0 "交易金额 (万)" = some (.str "-"))
    (h : applyFields item sc field_mapping row0 = .ok row) :
    pyLookup row "交易金额 (万)" =
      some (jyje_display (coerce (pyGetD item "JYJE" (.str "-")))) := by
  have hsplit : field_mapping =
      [("SCODE", "股票代码"), ("SNAME", "股票简称"), ("OBJTYPE", "相关"),
       ("H_COMNAME", "交易标的"), ("G_GOMNAME", "卖方"), ("S_COMNAME", "买方")] ++
      ("JYJE", "交易金额 (万)") ::
      [("BZNAME", "币种"), ("ZRFS", "并购方式"), ("ANNOUNDATE", "最新公告日")] := rfl
  rw [hsplit] at h
  obtain ⟨mid, h1, h2⟩ := applyFields_ok_split _ _ _ _ _ _ h
  obtain ⟨mid2, h3, h4⟩ := applyFields_cons _ _ _ _ _ _ _ h2
  have hpre : pyLookup mid "交易金额 (万)" = some (.str "-") := by
    rw [applyFields_pres item sc _ row0 mid _ (by decide) h1]
    exact h0
  unfold applyField at h3
  rw [if_pos rfl] at h3
  injection h3 with hr
  subst hr
  rw [applyFields_pres item sc _ _ row _ (by decide) h4]
  unfold jyje_display
  by_cases hm : pyEq (coerce (pyGetD item "JYJE" (.str "-"))) (.str "-") = true
  · rw [if_pos hm, if_pos hm]
    exact hpre
  · rw [if_neg hm, if_neg hm]
    cases hf : pyFloat (coerce (pyGetD item "JYJE" (.str "-"))) <;>
      simp only [hf] <;> rw [pyLookup_pySet_self]

theorem row_objtype_value (item : RawRecord) (sc : Value) (row0 row : Row)
    (h : applyFields item sc field_mapping row0 = .ok row) :
    pyLookup row "相关_带分隔符" =
      some (.str (if pyTruthy sc && !pyEq (coerce (pyGetD item "OBJTYPE" (.str "-"))) (.str "-")
                  then sepLinks (pyStr sc) else "-")) ∧
    pyLookup row "相关_换行" =
      some (.str (if pyTruthy sc && !pyEq (coerce (pyGetD item "OBJTYPE" (.str "-"))) (.str "-")
                  then brLinks (pyStr sc) else "-")) := by
  have hsplit : field_mapping =
      [("SCODE", "股票代码"), ("SNAME", "股票简称")] ++
      ("OBJTYPE", "相关") ::
      [("H_COMNAME", "交易标的"), ("G_GOMNAME", "卖方"), ("S_COMNAME", "买方"),
       ("JYJE", "交易金额 (万)"), ("BZNAME", "币种"), ("ZRFS", "并购方式"),
       ("ANNOUNDATE", "最新公告日")] := rfl
  rw [hsplit] at h
  obtain ⟨mid, _, h2⟩ := applyFields_ok_split _ _ _ _ _ _ h
  obtain ⟨mid2, h3, h4⟩ := applyFields_cons _ _ _ _ _ _ _ h2
  unfold applyField at h3
  rw [if_neg (by decide : ¬ ("OBJTYPE" : String) = "JYJE"), if_pos rfl] at h3
  injection h3 with hr
  subst hr
  have hp1 := applyFields_pres item sc _ _ row "相关_带分隔符" (by decide) h4
  have hp2 := applyFields_pres item sc _ _ row "相关_换行" (by decide) h4
  rw [hp1, hp2]
  by_cases hc : (pyTruthy sc && !pyEq (coerce (pyGetD item "OBJTYPE" (.str "-"))) (.str "-")) = true
  · rw [if_pos hc]
    constructor
    · rw [if_pos hc, pyLookup_pySet_ne _ _ _ _ (by decide), pyLookup_pySet_self]
    · rw [if_pos hc, pyLookup_pySet_self]
  · rw [if_neg hc]
    constructor
    · rw [if_neg hc, pyLookup_pySet_ne _ _ _ _ (by decide), pyLookup_pySet_self]
    · rw [if_neg hc, pyLookup_pySet_self]

theorem row_ann_value (item : RawRecord) (sc : Value) (row0 row : Row)
    (h : applyFields item sc field_mapping row0 = .ok row) :
    ∃ s, coerce (pyGetD item "ANNOUNDATE" (.str "-")) = .str s ∧
      pyLookup row "最新公告日" =
        some (.str (if s = "-" then "-" else String.mk (s.data.take 10))) := by
  have hsplit : field_mapping =
      [("SCODE", "股票代码"), ("SNAME", "股票简称"), ("OBJTYPE", "相关"),
       ("H_COMNAME", "交易标的"), ("G_GOMNAME", "卖方"), ("S_COMNAME", "买方"),
       ("JYJE", "交易金额 (万)"), ("BZNAME", "币种"), ("ZRFS", "并购方式")] ++
      ("ANNOUNDATE", "最新公告日") :: [] := rfl
  rw [hsplit] at h
  obtain ⟨mid, _, h2⟩ := applyFields_ok_split _ _ _ _ _ _ h
  obtain ⟨mid2, h3, h4⟩ := applyFields_cons _ _ _ _ _ _ _ h2
  simp only [applyFields] at h4
  injection h4 with hr
  subst hr
  unfold applyField at h3
  rw [if_neg (by decide : ¬ ("ANNOUNDATE" : String) = "JYJE"),
      if_neg (by decide : ¬ ("ANNOUNDATE" : String) = "OBJTYPE"), if_pos rfl] at h3
  by_cases hm : pyEq (coerce (pyGetD item "ANNOUNDATE" (.str "-"))) (.str "-") = true
  · rw [if_pos hm] at h3
    injection h3 with hr
    subst hr
    refine ⟨"-", (pyEq_str_iff _ _).mp hm, ?_⟩
    rw [if_pos rfl, pyLookup_pySet_self]
  · rw [if_neg hm] at h3
    cases hv : coerce (pyGetD item "ANNOUNDATE" (.str "-")) with
    | str s =>
      rw [hv] at h3 hm
      simp only [pySlice10] at h3
      injection h3 with hr
      subst hr
      have hs : ¬ s = "-" := by
        intro he
        subst he
        exact hm (by simp [pyEq])
      exact ⟨s, rfl, by rw [if_neg hs, pyLookup_pySet_self]⟩
    | null => rw [hv] at h3; simp only [pySlice10] at h3; cases h3
    | int n => rw [hv] at h3; simp only [pySlice10] at h3; cases h3
    | num q => rw [hv] at h3; simp only [pySlice10] at h3; cases h3

theorem row_serial_value (item : RawRecord) (sc : Value) (serial : ℕ) (row : Row)
    (h : applyFields item sc field_mapping (initRow serial) = .ok row) :
    pyLookup row "序号" = some (.int serial) := by
  rw [applyFields_pres item sc _ _ row "序号" (by decide) h]
  exact initRow_serial serial

theorem row_no_xiangguan (item : RawRecord) (sc : Value) (serial : ℕ) (row : Row)
    (h : applyFields item sc field_mapping (initRow serial) = .ok row) :
    pyLookup row "相关" = none := by
  rw [applyFields_pres item sc _ _ row "相关" (by decide) h]
  exact initRow_other serial _ (by decide) (by decide)

/-! ### Decomposition of one loop iteration -/

theorem processItem_ok_elim (today : String) (serial : ℕ) (item : RawRecord)
    (row : Row) (g : Option Row)
    (h : processItem today serial item = .ok (some (row, g))) :
    keepB today item = true ∧
    applyFields item (pyGetD item "SCODE" (.str "")) field_mapping (initRow serial) = .ok row ∧
    ∃ b, gdCheck (pyGetD row "卖方" (.str "")) (pyGetD row "买方" (.str "")) = .ok b ∧
      ((b = false ∧ g = none) ∨
       (b = true ∧ ∃ link, pyLookup row "相关_带分隔符" = some link ∧
          g = some (pySet row "相关" link))) := by
  unfold processItem at h
  cases hv : pyGetD item "SCGGRQ" (.str "") with
  | str s =>
    rw [hv] at h
    simp only [pySlice10] at h
    by_cases ht : String.mk (s.data.take 10) = today
    · rw [if_neg (not_not_intro ht)] at h
      have hkeep : keepB today item = true := by
        simp [keepB, hv, ht]
      cases ha : applyFields item (pyGetD item "SCODE" (.str ""))
          field_mapping (initRow serial) with
      | error e =>
        rw [show (pySet [("序号", Value.int serial)] "交易金额 (万)" (.str "-"))
            = initRow serial from rfl, ha] at h
        dsimp only at h
        cases h
      | ok r =>
        rw [show (pySet [("序号", Value.int serial)] "交易金额 (万)" (.str "-"))
            = initRow serial from rfl, ha] at h
        dsimp only at h
        cases hgd : gdCheck (pyGetD r "卖方" (.str "")) (pyGetD r "买方" (.str "")) with
        | error e => rw [hgd] at h; dsimp only at h; cases h
        | ok b =>
          rw [hgd] at h
          try dsimp only at h
          cases b with
          | false =>
            injection h with h1
            injection h1 with h2
            injection h2 with h3 h4
            subst h3
            exact ⟨hkeep, rfl, false, hgd, Or.inl ⟨rfl, h4.symm⟩⟩
          | true =>
            cases hl : pyLookup r "相关_带分隔符" with
            | none => rw [hl] at h; dsimp only at h; cases h
            | some link =>
              rw [hl] at h
              dsimp only at h
              injection h with h1
              injection h1 with h2
              injection h2 with h3 h4
              subst h3
              exact ⟨hkeep, rfl, true, hgd, Or.inr ⟨rfl, link, hl, h4.symm⟩⟩
    · rw [if_pos ht] at h
      cases h
  | null => rw [hv] at h; simp only [pySlice10] at h; cases h
  | int n => rw [hv] at h; simp only [pySlice10] at h; cases h
  | num q => rw [hv] at h; simp only [pySlice10] at h; cases h

theorem processItem_none_elim (today : String) (serial : ℕ) (item : RawRecord)
    (h : processItem today serial item = .ok none) : keepB today item = false := by
  unfold processItem at h
  cases hv : pyGetD item "SCGGRQ" (.str "") with
  | str s =>
    rw [hv] at h
    simp only [pySlice10] at h
    by_cases ht : String.mk (s.data.take 10) = today
    · rw [if_neg (not_not_intro ht)] at h
      cases ha : applyFields item (pyGetD item "SCODE" (.str ""))
          field_mapping (initRow serial) with
      | error e =>
        rw [show (pySet [("序号", Value.int serial)] "交易金额 (万)" (.str "-"))
            = initRow serial from rfl, ha] at h
        dsimp only at h
        cases h
      | ok r =>
        rw [show (pySet [("序号", Value.int serial)] "交易金额 (万)" (.str "-"))
            = initRow serial from rfl, ha] at h
        dsimp only at h
        cases hgd : gdCheck (pyGetD r "卖方" (.str "")) (pyGetD r "买方" (.str "")) with
        | error e => rw [hgd] at h; dsimp only at h; cases h
        | ok b =>
          rw [hgd] at h
          try dsimp only at h
          cases b with
          | false => cases h
          | true =>
            cases hl : pyLookup r "相关_带分隔符" with
            | none => rw [hl] at h; dsimp only at h; cases h
            | some link => rw [hl] at h; dsimp only at h; cases h
    · simp [keepB, hv, ht]
  | null => rw [hv] at h; simp only [pySlice10] at h; cases h
  | int n => rw [hv] at h; simp only [pySlice10] at h; cases h
  | num q => rw [hv] at h; simp only [pySlice10] at h; cases h

/-! ### The loop: retained records, order, serial numbers -/

theorem processAux_spec (today : String) :
    ∀ (raw : List RawRecord) (serial : ℕ) (rows gds : List Row),
      processAux today serial raw = .ok (rows, gds) →
      rows.length = (raw.filter (keepB today)).length ∧
      ∀ i (hi : i < rows.length),
        ∃ (hi' : i < (raw.filter (keepB today)).length) (g : Option Row),
          processItem today (serial + i) ((raw.filter (keepB today)).get ⟨i, hi'⟩) =
            .ok (some (rows.get ⟨i, hi⟩, g))
  | [], serial, rows, gds, h => by
    simp only [processAux] at h
    injection h with h1
    injection h1 with h2 h3
    subst h2
    exact ⟨rfl, fun i hi => absurd hi (by simp)⟩
  | item :: rest, serial, rows, gds, h => by
    simp only [processAux] at h
    cases hpi : processItem today serial item with
    | error e => rw [hpi] at h; dsimp only at h; cases h
    | ok o =>
      rw [hpi] at h
      try dsimp only at h
      cases o with
      | none =>
        have hk := processItem_none_elim today serial item hpi
        have ih := processAux_spec today rest serial rows gds h
        simpa [List.filter_cons, hk] using ih
      | some p =>
        obtain ⟨row, g⟩ := p
        cases hrec : processAux today (serial + 1) rest with
        | error e => rw [hrec] at h; dsimp only at h; cases h
        | ok pr =>
          obtain ⟨rows', gds'⟩ := pr
          rw [hrec] at h
          dsimp only at h
          injection h with h1
          injection h1 with h2 h3
          subst h2
          have hk := (processItem_ok_elim today serial item row g hpi).1
          have ih := processAux_spec today rest (serial + 1) rows' gds' hrec
          rw [List.filter_cons, if_pos hk]
          refine ⟨by simpa using ih.1, fun i hi => ?_⟩
          cases i with
          | zero =>
            refine ⟨by simp, g, ?_⟩
            simpa using hpi
          | succ j =>
            have hj : j < rows'.length := by simpa using hi
            obtain ⟨hj', g', hg'⟩ := ih.2 j hj
            refine ⟨by simpa using hj', g', ?_⟩
            have harith : serial + (j + 1) = serial + 1 + j := by omega
            rw [harith]
            simpa using hg'

/-! ### Characterizing the region classifier -/

theorem is_gd_ok_true_iff (v : Value) :
    is_guangdong_company v = .ok true ↔ gd_name_match v := by
  unfold is_guangdong_company gd_name_match
  by_cases hm : pyEq v (.str "-") = true
  · rw [if_pos hm]
    have hv := (pyEq_str_iff v "-").mp hm
    subst hv
    constructor
    · intro h
      injection h with hb
      cases hb
    · rintro ⟨s, hs, hne, -⟩
      injection hs with he
      exact absurd he.symm hne
  · rw [if_neg hm]
    cases v with
    | str s =>
      constructor
      · intro h
        injection h with hb
        refine ⟨s, rfl, ?_, ?_⟩
        · intro he
          subst he
          exact hm (by simp [pyEq])
        · exact List.any_eq_true.mp hb
      · rintro ⟨s', hs', -, kw, hkw, hin⟩
        injection hs' with he
        subst he
        exact congrArg Except.ok (List.any_eq_true.mpr ⟨kw, hkw, hin⟩)
    | null =>
      constructor
      · intro h; cases h
      · rintro ⟨s, hs, -⟩; cases hs
    | int n =>
      constructor
      · intro h; cases h
      · rintro ⟨s, hs, -⟩; cases hs
    | num q =>
      constructor
      · intro h; cases h
      · rintro ⟨s, hs, -⟩; cases hs

theorem is_gd_ok_false_not (v : Value) (h : is_guangdong_company v = .ok false) :
    ¬ gd_name_match v := by
  intro hm
  rw [(is_gd_ok_true_iff v).mpr hm] at h
  injection h with hb
  cases hb

theorem gdCheck_iff (s b : Value) (bb : Bool) (h : gdCheck s b = .ok bb) :
    bb = true ↔ (gd_name_match s ∨ gd_name_match b) := by
  unfold gdCheck at h
  cases hs : is_guangdong_company s with
  | error e => rw [hs] at h; cases h
  | ok bs =>
    rw [hs] at h
    cases bs with
    | true =>
      injection h with hb
      subst hb
      simp [Or.inl ((is_gd_ok_true_iff s).mp hs)]
    | false =>
      have hns := is_gd_ok_false_not s hs
      cases bb with
      | true => simp [Or.inr ((is_gd_ok_true_iff b).mp h)]
      | false =>
        simp only [Bool.false_eq_true, false_iff]
        rintro (hgs | hgb)
        · exact hns hgs
        · exact is_gd_ok_false_not b h hgb

/-! ### Claim theorems -/

/-- C5. — A retained row is placed in the region-tagged set if and only if
its seller (`卖方`) or buyer (`买方`) field is a non-sentinel string containing
some keyword of the fixed Guangdong list as a substring; and every tagged
entry's `相关` field equals the row's pipe-separated rendering
(`相关_带分隔符`). -/
theorem c5_region_classification (today : String) (serial : ℕ) (item : RawRecord)
    (row : Row) (g : Option Row)
    (h : processItem today serial item = .ok (some (row, g))) :
    (g.isSome = true ↔
      (gd_name_match (pyGetD row "卖方" (.str "")) ∨
       gd_name_match (pyGetD row "买方" (.str "")))) ∧
    ∀ c, g = some c → pyLookup c "相关" = pyLookup row "相关_带分隔符" := by
  obtain ⟨-, -, b, hgd, hcase⟩ := processItem_ok_elim today serial item row g h
  have hiff := gdCheck_iff _ _ b hgd
  rcases hcase with ⟨hb, hg⟩ | ⟨hb, link, hl, hg⟩
  · subst hb
    subst hg
    constructor
    · constructor
      · intro habs
        cases habs
      · intro hm
        cases hiff.mpr hm
    · intro c hc
      cases hc
  · subst hb
    subst hg
    constructor
    · exact ⟨fun _ => hiff.mp rfl, fun _ => rfl⟩
    · intro c hc
      injection hc with hc'
      subst hc'
      rw [pyLookup_pySet_self, hl]

/-- C5 witness —: a concrete retained record whose seller is
`广东XX有限公司` is tagged; by the classification theorem its seller or buyer
field matches the keyword list. -/
theorem c5_region_classification_witness :
    gd_name_match (pyGetD witRowC5 "卖方" (.str "")) ∨
      gd_name_match (pyGetD witRowC5 "买方" (.str "")) :=
  (c5_region_classification "2025-01-02" 1 witItemC5 witRowC5
    (some (pySet witRowC5 "相关" (Value.str "-"))) (by decide)).1.mp rfl

/-- C8. — The region classifier never mutates the original row: the tagged
entry is the row's copy with `相关` set to the pipe-separated rendering, it
agrees with the original row on every other key, and the original row carries
no `相关` key at all (before or after classification). -/
theorem c8_no_mutation (today : String) (serial : ℕ) (item : RawRecord)
    (row c : Row)
    (h : processItem today serial item = .ok (some (row, some c))) :
    ∃ link, pyLookup row "相关_带分隔符" = some link ∧
      c = pySet row "相关" link ∧
      pyLookup c "相关" = some link ∧
      (∀ k, k ≠ "相关" → pyLookup c k = pyLookup row k) ∧
      pyLookup row "相关" = none := by
  obtain ⟨-, ha, b, -, hcase⟩ := processItem_ok_elim today serial item row (some c) h
  rcases hcase with ⟨-, hg⟩ | ⟨-, link, hl, hg⟩
  · cases hg
  · injection hg with hg'
    subst hg'
    exact ⟨link, hl, rfl, pyLookup_pySet_self row "相关" link,
      fun k hk => pyLookup_pySet_ne row "相关" k link hk,
      row_no_xiangguan item _ serial row ha⟩

/-- C8 witness —: at a concrete tagged record, the tagged entry is the
row's copy extended with `相关`, and the original row has no `相关` key. -/
theorem c8_no_mutation_witness :
    witCaseC8 = pySet witRowC8 "相关" (Value.str "-") ∧
      pyLookup witRowC8 "相关" = none := by
  obtain ⟨link, h1, h2, -, -, h5⟩ :=
    c8_no_mutation "2025-01-03" 1 witItemC8 witRowC8 witCaseC8 (by decide)
  have he : pyLookup witRowC8 "相关_带分隔符" = some (Value.str "-") := by decide
  rw [he] at h1
  injection h1 with h1'
  rw [← h1'] at h2
  exact ⟨h2, h5⟩

/-! ### C1: missing source values -/

theorem coerce_of_missing (item : RawRecord) (api : String)
    (h : missing_source item api) :
    coerce (pyGetD item api (.str "-")) = .str "-" := by
  rcases h with h | h | ⟨s, h, hs⟩
  · simp only [pyGetD, h]
    decide
  · simp only [pyGetD, h]
    decide
  · simp only [pyGetD, h, coerce, if_pos hs]

/-- C1 counterexample. — The claim fails for the `OBJTYPE` source field: on
a retained record with no `OBJTYPE` value, the mapped report field `相关` is
not `"-"` — it is absent from the canonical row altogether (the loop writes
only the two link renderings `相关_带分隔符`/`相关_换行`, never `相关`). -/
theorem c1_counterexample :
    ¬ (∀ (row : Row) (g : Option Row),
        processItem "2025-01-01" 1 [("SCGGRQ", Value.str "2025-01-01")] =
          .ok (some (row, g)) →
        pyLookup row "相关" = some (Value.str "-")) := by
  intro hall
  have h := hall rowAllMissing none (by decide)
  revert h
  decide

/-- C1 (amended). — For every retained record and every source field of the
mapping table whose value is missing (absent, null, empty/whitespace-only, or
"none" in any letter case): for each field other than `OBJTYPE` the mapped
canonical-row field equals `"-"`; for `OBJTYPE` the two link renderings
`相关_带分隔符` and `相关_换行` equal `"-"` (no `相关` key is written). -/
theorem c1_missing_fields_amended (today : String) (serial : ℕ)
    (item : RawRecord) (row : Row) (g : Option Row)
    (h : processItem today serial item = .ok (some (row, g))) :
    ∀ api rep, (api, rep) ∈ field_mapping → missing_source item api →
      (api = "OBJTYPE" →
        pyLookup row "相关_带分隔符" = some (.str "-") ∧
        pyLookup row "相关_换行" = some (.str "-")) ∧
      (api ≠ "OBJTYPE" → pyLookup row rep = some (.str "-")) := by
  obtain ⟨-, ha, -⟩ := processItem_ok_elim today serial item row g h
  intro api rep hmem hmiss
  have hc := coerce_of_missing item api hmiss
  simp only [field_mapping, List.mem_cons, List.not_mem_nil, or_false,
    Prod.mk.injEq] at hmem
  rcases hmem with ⟨rfl, rfl⟩ | hmem
  · refine ⟨fun habs => absurd habs (by decide), fun _ => ?_⟩
    rw [row_pass_value item _ []
      [("SNAME", "股票简称"), ("OBJTYPE", "相关"), ("H_COMNAME", "交易标的"),
       ("G_GOMNAME", "卖方"), ("S_COMNAME", "买方"), ("JYJE", "交易金额 (万)"),
       ("BZNAME", "币种"), ("ZRFS", "并购方式"), ("ANNOUNDATE", "最新公告日")]
      "SCODE" "股票代码" _ row rfl (by decide) (by decide) (by decide) (by decide) ha, hc]
  rcases hmem with ⟨rfl, rfl⟩ | hmem
  · refine ⟨fun habs => absurd habs (by decide), fun _ => ?_⟩
    rw [row_pass_value item _ [("SCODE", "股票代码")]
      [("OBJTYPE", "相关"), ("H_COMNAME", "交易标的"),
       ("G_GOMNAME", "卖方"), ("S_COMNAME", "买方"), ("JYJE", "交易金额 (万)"),
       ("BZNAME", "币种"), ("ZRFS", "并购方式"), ("ANNOUNDATE", "最新公告日")]
      "SNAME" "股票简称" _ row rfl (by decide) (by decide) (by decide) (by decide) ha, hc]
  rcases hmem with ⟨rfl, rfl⟩ | hmem
  · refine ⟨fun _ => ?_, fun hne => absurd rfl hne⟩
    have hobj := row_objtype_value item _ _ row ha
    rw [hc] at hobj
    simpa [pyEq] using hobj
  rcases hmem with ⟨rfl, rfl⟩ | hmem
  · refine ⟨fun habs => absurd habs (by decide), fun _ => ?_⟩
    rw [row_pass_value item _
      [("SCODE", "股票代码"), ("SNAME", "股票简称"), ("OBJTYPE", "相关")]
      [("G_GOMNAME", "卖方"), ("S_COMNAME", "买方"), ("JYJE", "交易金额 (万)"),
       ("BZNAME", "币种"), ("ZRFS", "并购方式"), ("ANNOUNDATE", "最新公告日")]
      "H_COMNAME" "交易标的" _ row rfl (by decide) (by decide) (by decide) (by decide) ha, hc]
  rcases hmem with ⟨rfl, rfl⟩ | hmem
  · refine ⟨fun habs => absurd habs (by decide), fun _ => ?_⟩
    rw [row_pass_value item _
      [("SCODE", "股票代码"), ("SNAME", "股票简称"), ("OBJTYPE", "相关"),
       ("H_COMNAME", "交易标的")]
      [("S_COMNAME", "买方"), ("JYJE", "交易金额 (万)"),
       ("BZNAME", "币种"), ("ZRFS", "并购方式"), ("ANNOUNDATE", "最新公告日")]
      "G_GOMNAME" "卖方" _ row rfl (by decide) (by decide) (by decide) (by decide) ha, hc]
  rcases hmem with ⟨rfl, rfl⟩ | hmem
  · refine ⟨fun habs => absurd habs (by decide), fun _ => ?_⟩
    rw [row_pass_value item _
      [("SCODE", "股票代码"), ("SNAME", "股票简称"), ("OBJTYPE", "相关"),
       ("H_COMNAME", "交易标的"), ("G_GOMNAME", "卖方")]
      [("JYJE", "交易金额 (万)"),
       ("BZNAME", "币种"), ("ZRFS", "并购方式"), ("ANNOUNDATE", "最新公告日")]
      "S_COMNAME" "买方" _ row rfl (by decide) (by decide) (by decide) (by decide) ha, hc]
  rcases hmem with ⟨rfl, rfl⟩ | hmem
  · refine ⟨fun habs => absurd habs (by decide), fun _ => ?_⟩
    rw [row_jyje_value item _ _ row (initRow_jyje serial) ha, hc]
    decide
  rcases hmem with ⟨rfl, rfl⟩ | hmem
  · refine ⟨fun habs => absurd habs (by decide), fun _ => ?_⟩
    rw [row_pass_value item _
      [("SCODE", "股票代码"), ("SNAME", "股票简称"), ("OBJTYPE", "相关"),
       ("H_COMNAME", "交易标的"), ("G_GOMNAME", "卖方"), ("S_COMNAME", "买方"),
       ("JYJE", "交易金额 (万)")]
      [("ZRFS", "并购方式"), ("ANNOUNDATE", "最新公告日")]
      "BZNAME" "币种" _ row rfl (by decide) (by decide) (by decide) (by decide) ha, hc]
  rcases hmem with ⟨rfl, rfl⟩ | hmem
  · refine ⟨fun habs => absurd habs (by decide), fun _ => ?_⟩
    rw [row_pass_value item _
      [("SCODE", "股票代码"), ("SNAME", "股票简称"), ("OBJTYPE", "相关"),
       ("H_COMNAME", "交易标的"), ("G_GOMNAME", "卖方"), ("S_COMNAME", "买方"),
       ("JYJE", "交易金额 (万)"), ("BZNAME", "币种")]
      [("ANNOUNDATE", "最新公告日")]
      "ZRFS" "并购方式" _ row rfl (by decide) (by decide) (by decide) (by decide) ha, hc]
  obtain ⟨rfl, rfl⟩ := hmem
  refine ⟨fun habs => absurd habs (by decide), fun _ => ?_⟩
  obtain ⟨s, hs, hlook⟩ := row_ann_value item _ _ row ha
  rw [hc] at hs
  injection hs with hs'
  rw [hlook, ← hs', if_pos rfl]

/-- C1 witness — for the amended claim: on a concrete retained record with
every mapped field absent, the seller field (a non-`OBJTYPE` field) is the
missing sentinel. -/
theorem c1_missing_fields_amended_witness :
    pyLookup rowAllMissing "卖方" = some (.str "-") :=
  ((c1_missing_fields_amended "2025-01-01" 1 [("SCGGRQ", Value.str "2025-01-01")]
    rowAllMissing none (by decide) "G_GOMNAME" "卖方" (by decide)
    (Or.inl (by decide))).2 (by decide))

/-! ### C4: presence of all canonical keys -/

theorem str_data_ne_nil (s : String) (h : s ≠ "") : s.data ≠ [] := by
  cases s with
  | mk d =>
    intro hd
    subst hd
    exact h rfl

theorem take10_ne_nil (s : String) (h : s ≠ "") :
    String.mk (s.data.take 10) ≠ "" := by
  intro he
  have hd := str_data_ne_nil s h
  cases hs : s.data with
  | nil => exact hd hs
  | cons a t =>
    rw [hs] at he
    have h2 := congrArg String.data he
    simp [List.take] at h2

theorem formatCurrency_ne_empty (x : Float64) : formatCurrency x ≠ "" := by
  cases x with
  | nan => decide
  | inf neg => cases neg <;> decide
  | finite neg m e =>
    unfold formatCurrency
    intro h
    have h2 := congrArg String.data h
    simp at h2

theorem jyje_display_str (v : Value) :
    ∃ t, jyje_display v = .str t ∧ t ≠ "" := by
  unfold jyje_display
  by_cases hm : pyEq v (.str "-") = true
  · exact ⟨"-", by rw [if_pos hm], by decide⟩
  · rw [if_neg hm]
    cases hf : pyFloat v with
    | none => exact ⟨"-", rfl, by decide⟩
    | some x => exact ⟨formatCurrency x, rfl, formatCurrency_ne_empty x⟩

theorem append_ne_empty_left (a b : String) (ha : a.data ≠ []) : a ++ b ≠ "" := by
  intro h
  apply ha
  have h2 := congrArg String.data h
  rw [String.data_append] at h2
  exact List.append_eq_nil.mp h2 |>.1

theorem sepLinks_ne_empty (sc : String) : sepLinks sc ≠ "" := by
  unfold sepLinks
  apply append_ne_empty_left
  simp only [String.data_append]
  intro h
  have h1 := (List.append_eq_nil.mp (List.append_eq_nil.mp (List.append_eq_nil.mp h).1).1).1
  revert h1
  decide

theorem brLinks_ne_empty (sc : String) : brLinks sc ≠ "" := by
  unfold brLinks
  apply append_ne_empty_left
  simp only [String.data_append]
  intro h
  have h1 := (List.append_eq_nil.mp (List.append_eq_nil.mp (List.append_eq_nil.mp h).1).1).1
  revert h1
  decide

/-- C4 counterexample. — The claim fails for the `相关` key: on a concrete
retained record the canonical row carries the two alternate renderings but no
`相关` key at all. -/
theorem c4_counterexample :
    ¬ (∀ (row : Row) (g : Option Row),
        processItem "2025-06-01" 1 [("SCGGRQ", Value.str "2025-06-01")] =
          .ok (some (row, g)) →
        ∃ v, pyLookup row "相关" = some v) := by
  intro hall
  obtain ⟨v, hv⟩ := hall rowAllMissing none (by decide)
  have hn : pyLookup rowAllMissing "相关" = none := by decide
  rw [hn] at hv
  cases hv

/-- C4 (amended). — Every canonical row produced for a retained record has
all twelve canonical keys present — the serial, the currency column, the two
link renderings, and the mapped report fields other than `相关` — each bound
to a value that is never null and never the empty string; the `相关` key
itself is absent (it exists only on region-tagged copies). -/
theorem c4_keys_amended (today : String) (serial : ℕ) (item : RawRecord)
    (row : Row) (g : Option Row)
    (h : processItem today serial item = .ok (some (row, g))) :
    (∀ k ∈ canonicalKeys, ∃ v, pyLookup row k = some v ∧ v ≠ .null ∧ v ≠ .str "") ∧
    pyLookup row "相关" = none := by
  obtain ⟨-, ha, -⟩ := processItem_ok_elim today serial item row g h
  refine ⟨?_, row_no_xiangguan item _ serial row ha⟩
  intro k hk
  simp only [canonicalKeys, List.mem_cons, List.not_mem_nil, or_false] at hk
  obtain ⟨hl1, hl2⟩ := row_objtype_value item _ _ row ha
  rcases hk with rfl | hk
  · exact ⟨.int serial, row_serial_value item _ serial row ha, by simp, by simp⟩
  rcases hk with rfl | hk
  · obtain ⟨t, ht, htne⟩ := jyje_display_str (coerce (pyGetD item "JYJE" (.str "-")))
    refine ⟨.str t, ?_, by simp, by simpa using htne⟩
    rw [row_jyje_value item _ _ row (initRow_jyje serial) ha, ht]
  rcases hk with rfl | hk
  · refine ⟨coerce (pyGetD item "SCODE" (.str "-")), ?_,
      coerce_ne_null _, coerce_ne_empty _⟩
    exact row_pass_value item _ []
      [("SNAME", "股票简称"), ("OBJTYPE", "相关"), ("H_COMNAME", "交易标的"),
       ("G_GOMNAME", "卖方"), ("S_COMNAME", "买方"), ("JYJE", "交易金额 (万)"),
       ("BZNAME", "币种"), ("ZRFS", "并购方式"), ("ANNOUNDATE", "最新公告日")]
      "SCODE" "股票代码" _ row rfl (by decide) (by decide) (by decide) (by decide) ha
  rcases hk with rfl | hk
  · refine ⟨coerce (pyGetD item "SNAME" (.str "-")), ?_,
      coerce_ne_null _, coerce_ne_empty _⟩
    exact row_pass_value item _ [("SCODE", "股票代码")]
      [("OBJTYPE", "相关"), ("H_COMNAME", "交易标的"),
       ("G_GOMNAME", "卖方"), ("S_COMNAME", "买方"), ("JYJE", "交易金额 (万)"),
       ("BZNAME", "币种"), ("ZRFS", "并购方式"), ("ANNOUNDATE", "最新公告日")]
      "SNAME" "股票简称" _ row rfl (by decide) (by decide) (by decide) (by decide) ha
  rcases hk with rfl | hk
  · refine ⟨_, hl1, by simp, ?_⟩
    split
    · simpa using sepLinks_ne_empty _
    · simp
  rcases hk with rfl | hk
  · refine ⟨_, hl2, by simp, ?_⟩
    split
    · simpa using brLinks_ne_empty _
    · simp
  rcases hk with rfl | hk
  · refine ⟨coerce (pyGetD item "H_COMNAME" (.str "-")), ?_,
      coerce_ne_null _, coerce_ne_empty _⟩
    exact row_pass_value item _
      [("SCODE", "股票代码"), ("SNAME", "股票简称"), ("OBJTYPE", "相关")]
      [("G_GOMNAME", "卖方"), ("S_COMNAME", "买方"), ("JYJE", "交易金额 (万)"),
       ("BZNAME", "币种"), ("ZRFS", "并购方式"), ("ANNOUNDATE", "最新公告日")]
      "H_COMNAME" "交易标的" _ row rfl (by decide) (by decide) (by decide) (by decide) ha
  rcases hk with rfl | hk
  · refine ⟨coerce (pyGetD item "G_GOMNAME" (.str "-")), ?_,
      coerce_ne_null _, coerce_ne_empty _⟩
    exact row_pass_value item _
      [("SCODE", "股票代码"), ("SNAME", "股票简称"), ("OBJTYPE", "相关"),
       ("H_COMNAME", "交易标的")]
      [("S_COMNAME", "买方"), ("JYJE", "交易金额 (万)"),
       ("BZNAME", "币种"), ("ZRFS", "并购方式"), ("ANNOUNDATE", "最新公告日")]
      "G_GOMNAME" "卖方" _ row rfl (by decide) (by decide) (by decide) (by decide) ha
  rcases hk with rfl | hk
  · refine ⟨coerce (pyGetD item "S_COMNAME" (.str "-")), ?_,
      coerce_ne_null _, coerce_ne_empty _⟩
    exact row_pass_value item _
      [("SCODE", "股票代码"), ("SNAME", "股票简称"), ("OBJTYPE", "相关"),
       ("H_COMNAME", "交易标的"), ("G_GOMNAME", "卖方")]
      [("JYJE", "交易金额 (万)"),
       ("BZNAME", "币种"), ("ZRFS", "并购方式"), ("ANNOUNDATE", "最新公告日")]
      "S_COMNAME" "买方" _ row rfl (by decide) (by decide) (by decide) (by decide) ha
  rcases hk with rfl | hk
  · refine ⟨coerce (pyGetD item "BZNAME" (.str "-")), ?_,
      coerce_ne_null _, coerce_ne_empty _⟩
    exact row_pass_value item _
      [("SCODE", "股票代码"), ("SNAME", "股票简称"), ("OBJTYPE", "相关"),
       ("H_COMNAME", "交易标的"), ("G_GOMNAME", "卖方"), ("S_COMNAME", "买方"),
       ("JYJE", "交易金额 (万)")]
      [("ZRFS", "并购方式"), ("ANNOUNDATE", "最新公告日")]
      "BZNAME" "币种" _ row rfl (by decide) (by decide) (by decide) (by decide) ha
  rcases hk with rfl | hk
  · refine ⟨coerce (pyGetD item "ZRFS" (.str "-")), ?_,
      coerce_ne_null _, coerce_ne_empty _⟩
    exact row_pass_value item _
      [("SCODE", "股票代码"), ("SNAME", "股票简称"), ("OBJTYPE", "相关"),
       ("H_COMNAME", "交易标的"), ("G_GOMNAME", "卖方"), ("S_COMNAME", "买方"),
       ("JYJE", "交易金额 (万)"), ("BZNAME", "币种")]
      [("ANNOUNDATE", "最新公告日")]
      "ZRFS" "并购方式" _ row rfl (by decide) (by decide) (by decide) (by decide) ha
  obtain rfl := hk
  obtain ⟨s, hs, hlook⟩ := row_ann_value item _ _ row ha
  by_cases hsd : s = "-"
  · subst hsd
    exact ⟨.str "-", by rw [hlook, if_pos rfl], by simp, by simp⟩
  · refine ⟨.str (String.mk (s.data.take 10)), by rw [hlook, if_neg hsd], by simp, ?_⟩
    have hne : s ≠ "" := by
      intro he
      subst he
      exact coerce_ne_empty (pyGetD item "ANNOUNDATE" (.str "-")) hs
    simpa using take10_ne_nil s hne

/-- C4 witness — for the amended claim: on the concrete all-missing retained
record every canonical key is present, non-null and nonempty. -/
theorem c4_keys_amended_witness :
    ∃ v, pyLookup rowAllMissing "相关_带分隔符" = some v ∧
      v ≠ .null ∧ v ≠ .str "" :=
  (c4_keys_amended "2025-06-01" 1 [("SCGGRQ", Value.str "2025-06-01")]
    rowAllMissing none (by decide)).1 "相关_带分隔符" (by decide)

/-! ### C2: date filter, order, serial numbers -/

/-- C2. — `process` retains exactly the records whose `SCGGRQ` value
(default `''`), truncated to its first 10 characters, equals the target
date, in original feed order; the i-th retained row (0-based) carries serial
number `i + 1` and is the one `processItem` builds from the i-th record of
the date-filtered feed. -/
theorem c2_date_filter (st : DataProcessorState) (raw : List RawRecord)
    (rows : List Row) (st' : DataProcessorState)
    (h : process st raw = .ok (rows, st')) :
    rows.length = (raw.filter (keepB st.today)).length ∧
    ∀ i (hi : i < rows.length),
      pyLookup (rows.get ⟨i, hi⟩) "序号" = some (.int (i + 1)) ∧
      ∃ (hi' : i < (raw.filter (keepB st.today)).length) (g : Option Row),
        processItem st.today (i + 1) ((raw.filter (keepB st.today)).get ⟨i, hi'⟩) =
          .ok (some (rows.get ⟨i, hi⟩, g)) := by
  unfold process at h
  by_cases hraw : raw.isEmpty
  · rw [if_pos hraw] at h
    injection h with h1
    injection h1 with h2 h3
    subst h2
    have hn : raw = [] := List.isEmpty_iff.mp hraw
    subst hn
    exact ⟨rfl, fun i hi => absurd hi (by simp)⟩
  · rw [if_neg hraw] at h
    cases hp : processAux st.today 1 raw with
    | error e =>
      rw [hp] at h
      try dsimp only at h
      cases h
    | ok pr =>
      obtain ⟨rows0, gds⟩ := pr
      rw [hp] at h
      try dsimp only at h
      injection h with h1
      injection h1 with h2 h3
      subst h2
      obtain ⟨hlen, hidx⟩ := processAux_spec st.today raw 1 rows0 gds hp
      refine ⟨hlen, fun i hi => ?_⟩
      obtain ⟨hi', g, hg⟩ := hidx i hi
      have harith : 1 + i = i + 1 := by omega
      rw [harith] at hg
      obtain ⟨-, ha, -⟩ := processItem_ok_elim _ _ _ _ _ hg
      exact ⟨row_serial_value _ _ _ _ ha, hi', g, hg⟩

/-- C2 witness —: on the concrete three-record feed, two records are
retained and the second retained row (built from the later timestamped
record) has serial number 2. -/
theorem c2_date_filter_witness :
    witRowsC2.length = (witRawC2.filter (keepB "2025-01-05")).length ∧
      pyLookup (witRowsC2.get ⟨1, by decide⟩) "序号" = some (.int 2) := by
  have h := c2_date_filter ⟨"2025-01-05", []⟩ witRawC2 witRowsC2
    ⟨"2025-01-05", []⟩ (by decide)
  exact ⟨h.1, (h.2 1 (by decide)).1⟩

/-! ### C6: data content and exceptions -/

theorem applyField_ok (api rep : String) (sc value : Value) (row : Row)
    (hann : api = "ANNOUNDATE" → ∃ s, value = .str s) :
    ∃ r, applyField api rep sc value row = .ok r := by
  unfold applyField
  by_cases hJ : api = "JYJE"
  · rw [if_pos hJ]
    exact ⟨_, rfl⟩
  · rw [if_neg hJ]
    by_cases hO : api = "OBJTYPE"
    · rw [if_pos hO]
      exact ⟨_, rfl⟩
    · rw [if_neg hO]
      by_cases hA : api = "ANNOUNDATE"
      · rw [if_pos hA]
        obtain ⟨s, rfl⟩ := hann hA
        by_cases hm : pyEq (Value.str s) (.str "-") = true
        · rw [if_pos hm]
          exact ⟨_, rfl⟩
        · rw [if_neg hm]
          simp only [pySlice10]
          exact ⟨_, rfl⟩
      · rw [if_neg hA]
        exact ⟨_, rfl⟩

theorem applyFields_ok (item : RawRecord) (sc : Value) :
    ∀ (m : List (String × String)) (row : Row),
      (∀ p ∈ m, p.1 = "ANNOUNDATE" →
        ∃ s, coerce (pyGetD item p.1 (.str "-")) = .str s) →
      ∃ r, applyFields item sc m row = .ok r
  | [], row, _ => ⟨row, rfl⟩
  | (api, rep) :: rest, row, hcond => by
    obtain ⟨mid, hmid⟩ := applyField_ok api rep sc
      (coerce (pyGetD item api (.str "-"))) row
      (fun hA => hcond (api, rep) (by simp) hA)
    obtain ⟨r, hr⟩ := applyFields_ok item sc rest mid
      (fun p hp => hcond p (by simp [hp]))
    refine ⟨r, ?_⟩
    simp only [applyFields, hmid]
    exact hr

theorem is_gd_str_ok (s : String) :
    ∃ b, is_guangdong_company (.str s) = .ok b := by
  unfold is_guangdong_company
  by_cases hm : pyEq (Value.str s) (.str "-") = true
  · rw [if_pos hm]
    exact ⟨false, rfl⟩
  · rw [if_neg hm]
    exact ⟨_, rfl⟩

theorem gdCheck_str_ok (s₁ s₂ : String) :
    ∃ b, gdCheck (.str s₁) (.str s₂) = .ok b := by
  unfold gdCheck
  obtain ⟨b₁, hb₁⟩ := is_gd_str_ok s₁
  rw [hb₁]
  cases b₁ with
  | true => exact ⟨true, rfl⟩
  | false => exact is_gd_str_ok s₂

theorem safe_field (item : RawRecord) (hs : safeItemB item = true) (api : String)
    (hapi : api ∈ (["ANNOUNDATE", "G_GOMNAME", "S_COMNAME"] : List String)) :
    (∃ s, pyGetD item api (.str "-") = .str s) ∨ pyGetD item api (.str "-") = .null := by
  simp only [safeItemB, Bool.and_eq_true] at hs
  have h2 := List.all_eq_true.mp hs.2 api hapi
  cases hv : pyGetD item api (.str "-") with
  | str s => exact Or.inl ⟨s, rfl⟩
  | null => exact Or.inr rfl
  | int n => rw [hv] at h2; cases h2
  | num q => rw [hv] at h2; cases h2

theorem processItem_safe (today : String) (serial : ℕ) (item : RawRecord)
    (hs : safeItemB item = true) :
    ∃ o, processItem today serial item = .ok o := by
  unfold processItem
  cases hv : pyGetD item "SCGGRQ" (.str "") with
  | str s =>
    simp only [pySlice10]
    by_cases ht : String.mk (s.data.take 10) ≠ today
    · rw [if_pos ht]
      exact ⟨none, rfl⟩
    · rw [if_neg ht]
      have hcond : ∀ p ∈ field_mapping, p.1 = "ANNOUNDATE" →
          ∃ s, coerce (pyGetD item p.1 (.str "-")) = .str s := by
        intro p hp hpA
        rw [hpA]
        exact coerce_of_str_or_null _ (safe_field item hs "ANNOUNDATE" (by decide))
      obtain ⟨row, hrow⟩ := applyFields_ok item (pyGetD item "SCODE" (.str ""))
        field_mapping (initRow serial) hcond
      rw [show (pySet [("序号", Value.int serial)] "交易金额 (万)" (.str "-"))
          = initRow serial from rfl, hrow]
      try dsimp only
      obtain ⟨s₁, h₁⟩ := coerce_of_str_or_null _ (safe_field item hs "G_GOMNAME" (by decide))
      obtain ⟨s₂, h₂⟩ := coerce_of_str_or_null _ (safe_field item hs "S_COMNAME" (by decide))
      have hlook₁ : pyLookup row "卖方" = some (.str s₁) := by
        rw [row_pass_value item _
          [("SCODE", "股票代码"), ("SNAME", "股票简称"), ("OBJTYPE", "相关"),
           ("H_COMNAME", "交易标的")]
          [("S_COMNAME", "买方"), ("JYJE", "交易金额 (万)"),
           ("BZNAME", "币种"), ("ZRFS", "并购方式"), ("ANNOUNDATE", "最新公告日")]
          "G_GOMNAME" "卖方" _ row rfl (by decide) (by decide) (by decide) (by decide) hrow, h₁]
      have hlook₂ : pyLookup row "买方" = some (.str s₂) := by
        rw [row_pass_value item _
          [("SCODE", "股票代码"), ("SNAME", "股票简称"), ("OBJTYPE", "相关"),
           ("H_COMNAME", "交易标的"), ("G_GOMNAME", "卖方")]
          [("JYJE", "交易金额 (万)"),
           ("BZNAME", "币种"), ("ZRFS", "并购方式"), ("ANNOUNDATE", "最新公告日")]
          "S_COMNAME" "买方" _ row rfl (by decide) (by decide) (by decide) (by decide) hrow, h₂]
      rw [pyGetD_of_lookup _ _ _ _ hlook₁, pyGetD_of_lookup _ _ _ _ hlook₂]
      obtain ⟨bb, hbb⟩ := gdCheck_str_ok s₁ s₂
      rw [hbb]
      cases bb with
      | false => exact ⟨_, rfl⟩
      | true =>
        obtain ⟨hl1, -⟩ := row_objtype_value item _ _ row hrow
        rw [hl1]
        exact ⟨_, rfl⟩
  | null =>
    simp only [safeItemB, Bool.and_eq_true, hv] at hs
    cases hs.1
  | int n =>
    simp only [safeItemB, Bool.and_eq_true, hv] at hs
    cases hs.1
  | num q =>
    simp only [safeItemB, Bool.and_eq_true, hv] at hs
    cases hs.1

theorem processAux_safe (today : String) :
    ∀ (raw : List RawRecord) (serial : ℕ),
      (∀ item ∈ raw, safeItemB item = true) →
      ∃ pr, processAux today serial raw = .ok pr
  | [], _, _ => ⟨([], []), rfl⟩
  | item :: rest, serial, hs => by
    obtain ⟨o, ho⟩ := processItem_safe today serial item (hs item (by simp))
    have hrest : ∀ x ∈ rest, safeItemB x = true := fun x hx => hs x (by simp [hx])
    cases o with
    | none =>
      obtain ⟨pr, hpr⟩ := processAux_safe today rest serial hrest
      refine ⟨pr, ?_⟩
      simp only [processAux, ho]
      exact hpr
    | some p =>
      obtain ⟨⟨rows, gds⟩, hpr⟩ := processAux_safe today rest (serial + 1) hrest
      obtain ⟨row, g⟩ := p
      cases g with
      | none =>
        refine ⟨(row :: rows, gds), ?_⟩
        simp only [processAux, ho, hpr]
      | some c =>
        refine ⟨(row :: rows, c :: gds), ?_⟩
        simp only [processAux, ho, hpr]

/-- C6 counterexample. — Data content can abort `process`: a record whose
`SCGGRQ` value is null makes line 79's `item.get('SCGGRQ','')[:10]` raise
`TypeError`, so the call does not terminate normally. -/
theorem c6_counterexample :
    process ⟨"2025-03-03", []⟩ [[("SCGGRQ", Value.null)]] = .error .typeError := by
  decide

/-- C6 (amended). — `process` terminates normally provided every record's
`SCGGRQ` value (if present) is a string and its `ANNOUNDATE`, `G_GOMNAME`
and `S_COMNAME` values (if present) are strings or nulls; under these data
conditions no content — in particular a non-numeric currency value, which is
merely downgraded to `"-"` for that field — raises out of the call. -/
theorem c6_no_exception_amended (st : DataProcessorState) (raw : List RawRecord)
    (hs : ∀ item ∈ raw, safeItemB item = true) :
    ∃ res, process st raw = .ok res := by
  unfold process
  by_cases hraw : raw.isEmpty
  · rw [if_pos hraw]
    exact ⟨_, rfl⟩
  · rw [if_neg hraw]
    obtain ⟨⟨rows, gds⟩, hpr⟩ := processAux_safe st.today raw 1 hs
    rw [hpr]
    exact ⟨_, rfl⟩

/-- C6 witness —: a concrete record on the target date with the
non-numeric currency value `"not-a-number"` is processed without an
exception. -/
theorem c6_no_exception_amended_witness :
    (process ⟨"2025-03-03", []⟩
      [[("SCGGRQ", Value.str "2025-03-03"), ("JYJE", Value.str "not-a-number")]]).isOk
      = true := by
  obtain ⟨res, hres⟩ := c6_no_exception_amended ⟨"2025-03-03", []⟩
    [[("SCGGRQ", Value.str "2025-03-03"), ("JYJE", Value.str "not-a-number")]]
    (by decide)
  rw [hres]
  rfl

/-! ### C7: empty-input short circuit -/

/-- C7. — When `process` yields zero canonical rows, `analyze` on that
empty sequence returns the fixed "no data" analysis, `generate_html` yields
no artifact whatever the render collaborator would do, and `main` attempts
no file delivery. -/
theorem c7_empty_shortcircuit (st : DataProcessorState) (raw : List RawRecord)
    (st' : DataProcessorState) (renderOk : Bool) (analysis : Analysis) (ds : String)
    (gen : List Row → Analysis → List String) (sendOk : String → Bool) (p : String)
    (h : process st raw = .ok ([], st')) :
    analyze st' [] = noDataAnalysis ∧
    generate_html renderOk [] analysis ds = none ∧
    MainAction.sendFile p ∉ mainRun st raw gen sendOk := by
  refine ⟨rfl, rfl, ?_⟩
  unfold mainRun
  by_cases hraw : raw.isEmpty
  · rw [if_pos hraw]
    simp
  · rw [if_neg hraw, h]
    simp

/-- C7 witness —: with a concrete feed whose only record misses the target
date, the no-data analysis is returned, nothing renders, and no file is
sent. -/
theorem c7_empty_shortcircuit_witness :
    analyze ⟨"2025-05-05", []⟩ [] = noDataAnalysis ∧
    generate_html true [] noDataAnalysis "20250505" = none ∧
    MainAction.sendFile "x.html" ∉
      mainRun ⟨"2025-05-05", []⟩ [[("SCGGRQ", Value.str "2024-01-01")]]
        (fun _ _ => ["x.html"]) (fun _ => true) :=
  c7_empty_shortcircuit ⟨"2025-05-05", []⟩ [[("SCGGRQ", Value.str "2024-01-01")]]
    ⟨"2025-05-05", []⟩ true noDataAnalysis "20250505"
    (fun _ _ => ["x.html"]) (fun _ => true) "x.html" (by decide)

/-! ### C9: analyze is read-only and repeatable -/

/-- C9. — A call of `analyze` leaves the instance state unchanged, and
running it twice on the same row sequence (threading the state through)
yields identical `total_count`, `guangdong_count` and `method_distribution`. -/
theorem c9_analyze_idempotent (st : DataProcessorState) (p : List Row) :
    (analyze_call st p).2 = st ∧
    (analyze_call st p).1.total_count =
      (analyze_call (analyze_call st p).2 p).1.total_count ∧
    (analyze_call st p).1.guangdong_count =
      (analyze_call (analyze_call st p).2 p).1.guangdong_count ∧
    (analyze_call st p).1.method_distribution =
      (analyze_call (analyze_call st p).2 p).1.method_distribution :=
  ⟨rfl, rfl, rfl, rfl⟩

/-! ### C10: guangdong data comes from instance state -/

theorem process_state_append (st : DataProcessorState) (raw : List RawRecord)
    (r : List Row) (st' : DataProcessorState)
    (h : process st raw = .ok (r, st')) :
    ∃ gd, st'.guangdong_cases = st.guangdong_cases ++ gd := by
  unfold process at h
  by_cases hraw : raw.isEmpty
  · rw [if_pos hraw] at h
    injection h with h1
    injection h1 with h2 h3
    subst h3
    exact ⟨[], by simp⟩
  · rw [if_neg hraw] at h
    cases hp : processAux st.today 1 raw with
    | error e =>
      rw [hp] at h
      try dsimp only at h
      cases h
    | ok pr =>
      obtain ⟨rows, gds⟩ := pr
      rw [hp] at h
      try dsimp only at h
      injection h with h1
      injection h1 with h2 h3
      subst h3
      exact ⟨gds, rfl⟩

/-- C10. — For any two non-empty row sequences, `analyze` on the same
instance returns the same `guangdong_cases` — the instance's accumulated
list, not anything computed from the argument — hence equal
`guangdong_count`; and two successive `process` calls on one instance
append their tagged cases to the same accumulated list. -/
theorem c10_analyze_reads_instance_state (st : DataProcessorState)
    (p₁ p₂ : List Row) (h₁ : p₁ ≠ []) (h₂ : p₂ ≠ []) :
    (analyze st p₁).guangdong_cases = st.guangdong_cases ∧
    (analyze st p₂).guangdong_cases = st.guangdong_cases ∧
    (analyze st p₁).guangdong_count = (analyze st p₂).guangdong_count ∧
    (∀ raw₁ raw₂ r₁ st₁ r₂ st₂,
      process st raw₁ = .ok (r₁, st₁) → process st₁ raw₂ = .ok (r₂, st₂) →
      ∃ g₁ g₂, st₁.guangdong_cases = st.guangdong_cases ++ g₁ ∧
        st₂.guangdong_cases = st.guangdong_cases ++ g₁ ++ g₂) := by
  have e₁ : (analyze st p₁).guangdong_cases = st.guangdong_cases := by
    simp [analyze, h₁]
  have e₂ : (analyze st p₂).guangdong_cases = st.guangdong_cases := by
    simp [analyze, h₂]
  refine ⟨e₁, e₂, ?_, ?_⟩
  · simp [analyze, h₁, h₂]
  · intro raw₁ raw₂ r₁ st₁ r₂ st₂ hp₁ hp₂
    obtain ⟨g₁, hg₁⟩ := process_state_append st raw₁ r₁ st₁ hp₁
    obtain ⟨g₂, hg₂⟩ := process_state_append st₁ raw₂ r₂ st₂ hp₂
    exact ⟨g₁, g₂, hg₁, by rw [hg₂, hg₁]⟩

/-- C10 witness —: on an instance whose accumulated list already holds one
tagged row, `analyze` on a concrete non-empty row sequence returns exactly
that accumulated list. -/
theorem c10_analyze_reads_instance_state_witness :
    (analyze ⟨"2025-01-06", [rowAllMissing]⟩ [witRowC3]).guangdong_cases =
      [rowAllMissing] :=
  (c10_analyze_reads_instance_state ⟨"2025-01-06", [rowAllMissing]⟩
    [witRowC3] [witRowC5] (by decide) (by decide)).1

end BGReport
